import Mathlib

/-!
Shallow embedding of the contact-conversion core of `src/Convert2.py`
(class `ContactConverter`), together with theorems checking the
natural-language specification against it.

Python strings are modelled as `List Char`; Python `None`-able strings as
`Option (List Char)`; a Python function that can raise is modelled as a
function into `Except` carrying the exception message; the caught-exception
wrapper returns `Option`.  The regular-expression class `\d` (resp. `\D`)
is modelled by `Char.isDigit` on the ASCII digits, and `str.lower` by
`Char.toLower`, which agree with Python on the ASCII inputs this program
manipulates.
-/

namespace VcardConvert

/-- Characters treated as whitespace by Python `str.strip` / `str.split`. -/
def isPySpace (c : Char) : Bool :=
  c == ' ' || c == '\t' || c == '\n' || c == '\r' || c == '\x0b' || c == '\x0c'

/-- View a Lean string literal as the list-of-characters representation used
throughout this development. -/
def str (s : String) : List Char := s.data

/-- Python `str.strip()`: remove leading and trailing whitespace. -/
def pyStrip (l : List Char) : List Char :=
  (((l.dropWhile isPySpace).reverse).dropWhile isPySpace).reverse

/-- Accumulator-passing worker for `pySplit`; `acc` holds the characters of
the token currently being read, in reverse. -/
def splitAux : List Char → List Char → List (List Char)
  | [], acc => if acc.isEmpty then [] else [acc.reverse]
  | c :: rest, acc =>
    if isPySpace c then
      if acc.isEmpty then splitAux rest []
      else acc.reverse :: splitAux rest []
    else splitAux rest (c :: acc)

/-- Python `str.split()` with no argument: split on runs of whitespace,
producing no empty tokens. -/
def pySplit (l : List Char) : List (List Char) := splitAux l []

/-- Python `sep.join(pieces)` for a one-character separator `sep`. -/
def joinSep (sep : Char) : List (List Char) → List Char
  | [] => []
  | [x] => x
  | x :: y :: rest => x ++ sep :: joinSep sep (y :: rest)

/-- The slices `cleaned[i : i + 4] for i in range(0, len(cleaned), 4)` of
`Convert2.py` line 130: cut a string into consecutive chunks of four
characters, the last chunk possibly shorter. -/
def chunk4 : List Char → List (List Char)
  | [] => []
  | [a] => [[a]]
  | [a, b] => [[a, b]]
  | [a, b, c] => [[a, b, c]]
  | a :: b :: c :: d :: rest => [a, b, c, d] :: chunk4 rest

/-- Python `cleaned.startswith("+")`. -/
def startsWithPlus : List Char → Bool
  | [] => false
  | c :: _ => c == '+'

/-- `ContactConverter.clean_phone_number` (`Convert2.py` lines 118-131).
The `ValueError` raised for short numbers (the spec's `PhoneTooShortError`)
is modelled as `Except.error` carrying the exception message. -/
def clean_phone_number (country_code : List Char) (phone : List Char) :
    Except (List Char) (List Char) :=
  let cleaned := phone.filter Char.isDigit
  if cleaned.length < 10 then
    Except.error (str "Phone number too short: " ++ phone)
  else
    let c2 :=
      if cleaned.length = 10 then country_code ++ ' ' :: cleaned
      else if 10 < cleaned.length ∧ startsWithPlus cleaned = false then
        '+' :: cleaned
      else cleaned
    Except.ok (pyStrip (joinSep ' ' (chunk4 c2)))

/-- `ContactConverter.parse_name` (`Convert2.py` lines 133-142), returning
`(firstname, lastname, full display name)`. -/
def parse_name (name : List Char) : List Char × List Char × List Char :=
  let parts := pySplit (pyStrip name)
  if parts.length = 1 then (parts.headD [], [], parts.headD [])
  else if 2 ≤ parts.length then
    (parts.headD [], joinSep ' ' parts.tail, pyStrip name)
  else ([], [], [])

/-- Character class `[a-zA-Z0-9._%+-]` of the email regular expression. -/
def isLocalChar (c : Char) : Bool :=
  c.isAlpha || c.isDigit || c == '.' || c == '_' || c == '%' || c == '+' || c == '-'

/-- Character class `[a-zA-Z0-9.-]` of the email regular expression. -/
def isDomainChar (c : Char) : Bool :=
  c.isAlpha || c.isDigit || c == '.' || c == '-'

/-- Full match of the anchored regular expression of `Convert2.py` line 149
(local part, at-sign, domain, dot, top-level label of two or more letters).
None of the character classes contains the at-sign, so a matching string has
its at-sign at the first at-sign, and the top-level label contains no dot, so
the separating dot is the last dot after the at-sign; the matcher decomposes
the candidate accordingly. -/
def emailMatch (s : List Char) : Bool :=
  let lp := s.takeWhile (fun c => !(c == '@'))
  match s.dropWhile (fun c => !(c == '@')) with
  | [] => false
  | _ :: dom =>
    match dom.reverse.dropWhile (fun c => !(c == '.')) with
    | [] => false
    | _ :: dRev =>
      let d := dRev.reverse
      let tld := (dom.reverse.takeWhile (fun c => !(c == '.'))).reverse
      !lp.isEmpty && lp.all isLocalChar && !d.isEmpty && d.all isDomainChar &&
        decide (2 ≤ tld.length) && tld.all Char.isAlpha

/-- `ContactConverter.validate_email` (`Convert2.py` lines 144-152).
Python falsiness of the argument (`None` or the empty string) yields `None`;
otherwise the address is trimmed and kept exactly when the regular
expression matches. -/
def validate_email (email : Option (List Char)) : Option (List Char) :=
  match email with
  | none => none
  | some e =>
    if e.isEmpty then none
    else
      let trimmed := pyStrip e
      if emailMatch trimmed then some trimmed else none

/-- A raw CSV row as produced by `csv.DictReader`: association list from
column name to value, in column order. -/
abbrev RawRow := List (List Char × List Char)

/-- The `Contact` dataclass (`Convert2.py` lines 24-33). -/
structure Contact where
  name : List Char
  phone : List Char
  email : Option (List Char) := none
  organization : Option (List Char) := none
  title : Option (List Char) := none
  address : Option (List Char) := none
  notes : Option (List Char) := none
  groups : Option (List (List Char)) := none
deriving DecidableEq, Repr

/-- Python `k.strip().lower()` applied to a column key. -/
def lowKey (k : List Char) : List Char := (pyStrip k).map Char.toLower

/-- `next((row[k].strip() for k in row if k.strip().lower() in names), None)`:
the stripped value of the first column whose normalized name is one of
`names` (for a single accepted spelling, `names` is a one-element list). -/
def findRaw (row : RawRow) (names : List (List Char)) : Option (List Char) :=
  (row.find? (fun kv => names.contains (lowKey kv.1))).map (fun kv => pyStrip kv.2)

/-- Python falsiness of an optional string: `None` or the empty string. -/
def falsyOpt : Option (List Char) → Bool
  | none => true
  | some s => s.isEmpty

/-- Body of the `try` block of `ContactConverter.validate_contact`
(`Convert2.py` lines 214-259); a raised `ValueError` is an `Except.error`
carrying its message. -/
def validate_contact_ex (country_code : List Char) (row : RawRow) :
    Except (List Char) Contact :=
  let name := findRaw row [str "name"]
  let phone := findRaw row [str "phone"]
  if falsyOpt name || falsyOpt phone then
    Except.error (str "Missing required fields: name or phone")
  else
    match clean_phone_number country_code (phone.getD []) with
    | Except.error e => Except.error e
    | Except.ok cleaned =>
      Except.ok
        ⟨name.getD [], cleaned,
         validate_email (findRaw row [str "email"]),
         findRaw row [str "organization", str "org"],
         findRaw row [str "title"],
         findRaw row [str "address"],
         findRaw row [str "notes", str "note"],
         none⟩

/-- `ContactConverter.validate_contact` (`Convert2.py` lines 212-263): the
`except Exception` clause converts any raised error into `None`. -/
def validate_contact (country_code : List Char) (row : RawRow) : Option Contact :=
  match validate_contact_ex country_code row with
  | Except.ok c => some c
  | Except.error _ => none

/-- The pairing produced by `enumerate(reader, start=n)`. -/
def enumFrom : Nat → List RawRow → List (Nat × RawRow)
  | _, [] => []
  | n, r :: rs => (n, r) :: enumFrom (n + 1) rs

/-- The row loop of `read_contacts` (`Convert2.py` lines 275-285), carrying
the number of the next row: each row goes through `validate_contact`; a
valid contact is appended to the first sequence, an invalid row is recorded
as `(row_number, data)` in the second. -/
def processRows (country_code : List Char) :
    Nat → List RawRow → List Contact × List (Nat × RawRow)
  | _, [] => ([], [])
  | n, r :: rs =>
    let rest := processRows country_code (n + 1) rs
    match validate_contact country_code r with
    | some c => (c :: rest.1, rest.2)
    | none => (rest.1, (n, r) :: rest.2)

/-- `ContactConverter.read_contacts` (`Convert2.py` lines 265-297) restricted
to its row loop; the CSV file has already been parsed into `rows`, and row
numbering starts at 2 (row 1 is the header line). -/
def read_contacts (country_code : List Char) (rows : List RawRow) :
    List Contact × List (Nat × RawRow) :=
  processRows country_code 2 rows

/-- `VCardVersion` (`Convert2.py` lines 19-21). -/
inductive VCardVersion
  | V2_1
  | V3_0
deriving DecidableEq, Repr

/-- The configuration fields of `ContactConverter.__init__` used by the
modelled core. -/
structure Converter where
  country_code : List Char
  vcard_version : VCardVersion
  name_suffix : List Char
  backup : Bool
deriving DecidableEq, Repr

/-- Python truthiness of an optional string field. -/
def truthyOpt : Option (List Char) → Bool
  | none => false
  | some s => !s.isEmpty

/-- The string interpolated for an optional field (only used when truthy). -/
def optVal : Option (List Char) → List Char
  | none => []
  | some s => s

/-- `ContactConverter.create_vcard_entry` (`Convert2.py` lines 154-196) with
the two templates of `setup_vcard_templates` (lines 56-71) expanded at their
placeholders. -/
def create_vcard_entry (conv : Converter) (contact : Contact) : List Char :=
  let pn := parse_name contact.name
  let email_field :=
    if truthyOpt contact.email then
      str "EMAIL" ++
        (if conv.vcard_version = VCardVersion.V3_0 then str ";TYPE=INTERNET" else []) ++
        str ":" ++ optVal contact.email ++ ['\n']
    else []
  let org_field :=
    if truthyOpt contact.organization then
      str "ORG:" ++ optVal contact.organization ++ ['\n']
    else []
  let title_field :=
    if truthyOpt contact.title then str "TITLE:" ++ optVal contact.title ++ ['\n']
    else []
  let adr_field :=
    if truthyOpt contact.address then
      str "ADR" ++
        (if conv.vcard_version = VCardVersion.V3_0 then str ";TYPE=HOME" else []) ++
        str ":;;" ++ optVal contact.address ++ str ";;;;" ++ ['\n']
    else []
  let note_field :=
    if truthyOpt contact.notes then str "NOTE:" ++ optVal contact.notes ++ ['\n']
    else []
  if conv.vcard_version = VCardVersion.V2_1 then
    str "BEGIN:VCARD\nVERSION:2.1\nN:;" ++ contact.name ++ conv.name_suffix ++
      str ";;;\nFN:" ++ contact.name ++ conv.name_suffix ++
      str "\nTEL;CELL;PREF:" ++ contact.phone ++ ['\n'] ++
      email_field ++ org_field ++ title_field ++ adr_field ++ note_field ++
      str "END:VCARD"
  else
    str "BEGIN:VCARD\nVERSION:3.0\nN:" ++ pn.2.1 ++ str ";" ++ pn.1 ++
      str ";;;\nFN:" ++ pn.2.2 ++ conv.name_suffix ++
      str "\nTEL;TYPE=CELL:" ++ contact.phone ++ ['\n'] ++
      email_field ++ org_field ++ title_field ++ adr_field ++ note_field ++
      str "END:VCARD"

/-- Abstract file-system state for the orchestrator: the parsed rows of the
input path when it exists, the content of the output file when it exists,
and the contents of backup copies made so far.  Console output, logging,
the CSV preview, and the rejection report are outside the model. -/
structure FS where
  inputRows : Option (List RawRow)
  output : Option (List Char)
  backups : List (List Char)
deriving DecidableEq, Repr

/-- The fatal batch-level errors of `convert_to_vcard`: `FileNotFoundError`
for a missing input path (the spec's `InputNotFoundError`) and the
`ValueError` for an empty valid-contact list (the spec's `EmptyResultError`). -/
inductive ConvError
  | inputNotFound
  | emptyResult
deriving DecidableEq, Repr

/-- `ContactConverter.backup_file` (`Convert2.py` lines 108-116): copy the
output file to a backup when it exists and backup is enabled. -/
def backup_file (conv : Converter) (fs : FS) : FS :=
  match fs.output with
  | some content =>
    if conv.backup then ⟨fs.inputRows, fs.output, content :: fs.backups⟩ else fs
  | none => fs

/-- `ContactConverter.convert_to_vcard` (`Convert2.py` lines 316-404):
verify that the input path exists, back up a pre-existing output file, read
and validate all rows, fail when no valid contact remains, otherwise render
every contact, join the cards with single line breaks, and overwrite the
output file.  The outcome is paired with the file-system state at return or
raise time. -/
def convert_to_vcard (conv : Converter) (fs : FS) : Except ConvError Unit × FS :=
  match fs.inputRows with
  | none => (Except.error ConvError.inputNotFound, fs)
  | some rows =>
    let fs1 := backup_file conv fs
    let res := read_contacts conv.country_code rows
    if res.1.isEmpty then (Except.error ConvError.emptyResult, fs1)
    else
      let content := joinSep '\n' (res.1.map (create_vcard_entry conv))
      (Except.ok (), ⟨fs1.inputRows, some content, fs1.backups⟩)

/-- The language of the email regular expression, stated structurally:
a non-empty local part over its character class, the at-sign, a non-empty
domain over its character class, a dot, and a top-level label of at least
two letters. -/
def EmailShape (s : List Char) : Prop :=
  ∃ lp d t, s = lp ++ '@' :: (d ++ '.' :: t) ∧
    lp ≠ [] ∧ (∀ c ∈ lp, isLocalChar c) ∧
    d ≠ [] ∧ (∀ c ∈ d, isDomainChar c) ∧
    2 ≤ t.length ∧ (∀ c ∈ t, Char.isAlpha c)

/-- Number of line breaks in a string. -/
def nlCount (l : List Char) : Nat := (l.filter (fun c => c == '\n')).length

/-- The string contains no line break. -/
def noNL (l : List Char) : Prop := nlCount l = 0

/-- The block ends with a line break and there is no blank line before its
last line: its last character is a line break and the character before that
is not. -/
def NoBlankEnd (l : List Char) : Prop :=
  l.getLast? = some '\n' ∧ l.dropLast.getLast? ≠ some '\n'

end VcardConvert

namespace VcardConvert


/-- The head of a non-empty `dropWhile` result fails the predicate. -/
theorem dropWhile_head?_false (p : Char → Bool) :
    ∀ (l : List Char) (x : Char), (l.dropWhile p).head? = some x → p x = false := by
  intro l
  induction l with
  | nil => intro x h; simp at h
  | cons a as ih =>
    intro x h
    cases hpa : p a with
    | true => rw [List.dropWhile_cons, if_pos hpa] at h; exact ih x h
    | false =>
      rw [List.dropWhile_cons, if_neg (by simp [hpa])] at h
      simp at h
      rw [← h]
      exact hpa

/-- `dropWhile` is the identity when the head already fails the predicate. -/
theorem dropWhile_eq_self_of_head? (p : Char → Bool) (l : List Char)
    (h : ∀ x, l.head? = some x → p x = false) : l.dropWhile p = l := by
  cases l with
  | nil => rfl
  | cons a as =>
    have ha : p a = false := h a (by simp)
    rw [List.dropWhile_cons, if_neg (by simp [ha])]

/-- A non-empty `dropWhile` result keeps the last element of the list. -/
theorem getLast?_dropWhile (p : Char → Bool) :
    ∀ l : List Char, l.dropWhile p ≠ [] → (l.dropWhile p).getLast? = l.getLast? := by
  intro l
  induction l with
  | nil => intro h; simp at h
  | cons a as ih =>
    intro h
    cases hpa : p a with
    | false => rw [List.dropWhile_cons, if_neg (by simp [hpa])]
    | true =>
      rw [List.dropWhile_cons, if_pos hpa] at h ⊢
      have has : as ≠ [] := by
        intro he; rw [he] at h; simp at h
      rw [ih h]
      cases as with
      | nil => exact absurd rfl has
      | cons b bs => rw [List.getLast?_cons_cons]

/-- Stripping is the identity on a string whose ends are not whitespace. -/
theorem pyStrip_eq_self (l : List Char)
    (h1 : ∀ x, l.head? = some x → isPySpace x = false)
    (h2 : ∀ x, l.getLast? = some x → isPySpace x = false) : pyStrip l = l := by
  unfold pyStrip
  rw [dropWhile_eq_self_of_head? _ _ h1]
  have hr : l.reverse.dropWhile isPySpace = l.reverse := by
    refine dropWhile_eq_self_of_head? _ _ (fun x hx => h2 x ?_)
    rw [List.head?_reverse] at hx
    exact hx
  rw [hr, List.reverse_reverse]

/-- The last character of a stripped string is not whitespace. -/
theorem pyStrip_getLast?_false (l : List Char) (x : Char)
    (h : (pyStrip l).getLast? = some x) : isPySpace x = false := by
  unfold pyStrip at h
  rw [List.getLast?_reverse] at h
  exact dropWhile_head?_false _ _ _ h

/-- The first character of a stripped string is not whitespace. -/
theorem pyStrip_head?_false (l : List Char) (x : Char)
    (h : (pyStrip l).head? = some x) : isPySpace x = false := by
  unfold pyStrip at h
  rw [List.head?_reverse] at h
  have hB : ((l.dropWhile isPySpace).reverse.dropWhile isPySpace) ≠ [] := by
    intro he; rw [he] at h; simp at h
  rw [getLast?_dropWhile _ _ hB, List.getLast?_reverse] at h
  exact dropWhile_head?_false _ _ _ h

/-- Python stripping is idempotent. -/
theorem pyStrip_idem (l : List Char) : pyStrip (pyStrip l) = pyStrip l :=
  pyStrip_eq_self _ (fun x hx => pyStrip_head?_false l x hx)
    (fun x hx => pyStrip_getLast?_false l x hx)

/-- A digit character is not whitespace. -/
theorem isDigit_not_pySpace (c : Char) (h : Char.isDigit c = true) :
    isPySpace c = false := by
  cases hsp : isPySpace c with
  | false => rfl
  | true =>
    simp [isPySpace] at hsp
    rcases hsp with ((((h1 | h1) | h1) | h1) | h1) | h1 <;>
      (subst h1; exact absurd h (by decide))

/-- Unfolding equation for `chunk4` on a list of four or more characters. -/
theorem chunk4_cons4 (a b c d : Char) (rest : List Char) :
    chunk4 (a :: b :: c :: d :: rest) = [a, b, c, d] :: chunk4 rest := rfl

/-- `chunk4` of a non-empty string is non-empty. -/
theorem chunk4_ne_nil : ∀ d : List Char, d ≠ [] → chunk4 d ≠ [] := by
  intro d h
  rcases d with _ | ⟨a, _ | ⟨b, _ | ⟨c, _ | ⟨e, rest⟩⟩⟩⟩ <;> simp_all [chunk4]

/-- Unfolding equation for `joinSep` on a list of two or more pieces. -/
theorem joinSep_cons (sep : Char) (x : List Char) (l : List (List Char)) (h : l ≠ []) :
    joinSep sep (x :: l) = x ++ sep :: joinSep sep l := by
  cases l with
  | nil => exact absurd rfl h
  | cons y ys => rfl

/-- Regrouping a non-empty string yields a non-empty string. -/
theorem joinSep_chunk4_ne_nil : ∀ d : List Char, d ≠ [] → joinSep ' ' (chunk4 d) ≠ [] := by
  intro d h
  rcases d with _ | ⟨a, _ | ⟨b, _ | ⟨c, _ | ⟨e, rest⟩⟩⟩⟩
  · exact absurd rfl h
  · simp [chunk4, joinSep]
  · simp [chunk4, joinSep]
  · simp [chunk4, joinSep]
  · rw [chunk4_cons4]
    cases hre : chunk4 rest with
    | nil => simp [joinSep]
    | cons z zs => rw [joinSep_cons _ _ _ (by simp [hre])]; simp

/-- Regrouping preserves the first character. -/
theorem joinSep_chunk4_head? : ∀ d : List Char, d ≠ [] →
    (joinSep ' ' (chunk4 d)).head? = d.head? := by
  intro d h
  rcases d with _ | ⟨a, _ | ⟨b, _ | ⟨c, _ | ⟨e, rest⟩⟩⟩⟩
  · exact absurd rfl h
  · rfl
  · rfl
  · rfl
  · rw [chunk4_cons4]
    cases hre : chunk4 rest with
    | nil => rfl
    | cons z zs => rw [joinSep_cons _ _ _ (by simp [hre])]; rfl

/-- Fuel-indexed form of `joinSep_chunk4_getLast?`. -/
theorem joinSep_chunk4_getLast?_aux : ∀ (n : Nat) (d : List Char), d.length ≤ n →
    d ≠ [] → (joinSep ' ' (chunk4 d)).getLast? = d.getLast? := by
  intro n
  induction n with
  | zero =>
    intro d hl hne
    cases d with
    | nil => exact absurd rfl hne
    | cons a as => simp at hl
  | succ n ih =>
    intro d hl hne
    rcases d with _ | ⟨a, _ | ⟨b, _ | ⟨c, _ | ⟨e, rest⟩⟩⟩⟩
    · exact absurd rfl hne
    · rfl
    · rfl
    · rfl
    · rw [chunk4_cons4]
      by_cases hre : rest = []
      · subst hre; rfl
      · rw [joinSep_cons _ _ _ (chunk4_ne_nil rest hre)]
        rw [List.getLast?_append_of_ne_nil _ (by simp)]
        have hj : joinSep ' ' (chunk4 rest) ≠ [] := joinSep_chunk4_ne_nil rest hre
        have hs : (' ' :: joinSep ' ' (chunk4 rest)).getLast? =
            (joinSep ' ' (chunk4 rest)).getLast? := by
          cases hjj : joinSep ' ' (chunk4 rest) with
          | nil => exact absurd hjj hj
          | cons z zs => rw [List.getLast?_cons_cons]
        rw [hs, ih rest (by simp at hl; omega) hre]
        cases rest with
        | nil => exact absurd rfl hre
        | cons r rs => simp [List.getLast?_cons_cons]

/-- Regrouping preserves the last character. -/
theorem joinSep_chunk4_getLast? (d : List Char) (h : d ≠ []) :
    (joinSep ' ' (chunk4 d)).getLast? = d.getLast? :=
  joinSep_chunk4_getLast?_aux d.length d le_rfl h

/-- C1 (counterexample): under the default configuration, the normalized
form of the ten-digit string `"9876543210"` carries TWO spaces after the
country-code prefix, not the single space the claim states: the grouping
step cuts the whole string `"+91 9876543210"` into four-character chunks,
whose first chunk `"+91 "` already ends in a space, and the join inserts
another one. -/
theorem c1_single_space_cex :
    clean_phone_number (str "+91") (str "9876543210") =
      Except.ok (str "+91  9876 5432 10") ∧
    str "+91  9876 5432 10" ≠ str "+91 9876 5432 10" :=
  ⟨by rfl, by decide⟩

/-- C1 (amended): for every string of exactly ten digit characters, under
the default country code `"+91"`, `clean_phone_number` returns the prefix
followed by two spaces, followed by the digits regrouped into 4-character
chunks separated by single spaces. -/
theorem c1_ten_digit_grouping (d : List Char) (hlen : d.length = 10)
    (hdig : ∀ c ∈ d, Char.isDigit c) :
    clean_phone_number (str "+91") d =
      Except.ok (str "+91  " ++ joinSep ' ' (chunk4 d)) := by
  have hfil : d.filter Char.isDigit = d := List.filter_eq_self.mpr hdig
  have hne : d ≠ [] := by intro he; rw [he] at hlen; simp at hlen
  unfold clean_phone_number
  simp only [hfil, hlen]
  rw [if_neg (by omega), if_pos trivial]
  have hch : chunk4 (str "+91" ++ ' ' :: d) = ['+', '9', '1', ' '] :: chunk4 d := rfl
  rw [hch, joinSep_cons _ _ _ (chunk4_ne_nil d hne)]
  have hstrip : pyStrip (['+', '9', '1', ' '] ++ ' ' :: joinSep ' ' (chunk4 d)) =
      ['+', '9', '1', ' '] ++ ' ' :: joinSep ' ' (chunk4 d) := by
    apply pyStrip_eq_self
    · intro x hx
      simp at hx
      rw [← hx]
      decide
    · intro x hx
      rw [List.getLast?_append_of_ne_nil _ (by simp)] at hx
      have hJ : joinSep ' ' (chunk4 d) ≠ [] := joinSep_chunk4_ne_nil d hne
      have hcc : (' ' :: joinSep ' ' (chunk4 d)).getLast? =
          (joinSep ' ' (chunk4 d)).getLast? := by
        cases hjj : joinSep ' ' (chunk4 d) with
        | nil => exact absurd hjj hJ
        | cons z zs => rw [List.getLast?_cons_cons]
      rw [hcc, joinSep_chunk4_getLast? d hne] at hx
      have hmem : x ∈ d := List.mem_of_mem_getLast? hx
      exact isDigit_not_pySpace x (hdig x hmem)
  rw [hstrip]
  rfl

/-- C1 (witness): the amended statement evaluated at `"9876543210"`. -/
theorem c1_ten_digit_grouping_witness :
    ((str "9876543210").length = 10 ∧ ∀ c ∈ str "9876543210", Char.isDigit c) ∧
    clean_phone_number (str "+91") (str "9876543210") =
      Except.ok (str "+91  9876 5432 10") := by
  refine ⟨⟨by decide, by decide⟩, ?_⟩
  have h := c1_ten_digit_grouping (str "9876543210") (by decide) (by decide)
  rw [h]
  rfl

/-- C4: for every input containing fewer than ten digit characters after
stripping every non-digit character, `clean_phone_number` fails with the
`ValueError` `"Phone number too short: ..."` (the spec's
`PhoneTooShortError`) rather than returning a value. -/
theorem c4_short_phone_error (country_code phone : List Char)
    (h : (phone.filter Char.isDigit).length < 10) :
    clean_phone_number country_code phone =
      Except.error (str "Phone number too short: " ++ phone) := by
  unfold clean_phone_number
  simp only []
  rw [if_pos h]

/-- C4 (witness): the short-phone failure evaluated at `"123"`. -/
theorem c4_short_phone_error_witness :
    (((str "123").filter Char.isDigit).length < 10) ∧
    clean_phone_number (str "+91") (str "123") =
      Except.error (str "Phone number too short: 123") := by
  refine ⟨by decide, ?_⟩
  have h := c4_short_phone_error (str "+91") (str "123") (by decide)
  rw [h]
  rfl

/-- C10: for every input with more than ten digit characters,
`clean_phone_number` returns a plus sign followed by those digits,
regrouped into 4-character chunks over the whole string including the plus
sign, whatever the configured country code and even when the raw input
already began with a plus: the stripped digit string never starts with a
plus, so the begins-with-plus guard always triggers the prepend. -/
theorem c10_long_phone_plus (country_code s : List Char)
    (h : 10 < (s.filter Char.isDigit).length) :
    clean_phone_number country_code s =
      Except.ok (joinSep ' ' (chunk4 ('+' :: s.filter Char.isDigit))) := by
  have hne : s.filter Char.isDigit ≠ [] := by
    intro he; rw [he] at h; simp at h
  have hplus : startsWithPlus (s.filter Char.isDigit) = false := by
    cases hcl : s.filter Char.isDigit with
    | nil => rfl
    | cons a as =>
      have hmem : a ∈ s.filter Char.isDigit := by
        rw [hcl]; exact List.mem_cons_self a as
      have ha : Char.isDigit a := List.of_mem_filter hmem
      show (a == '+') = false
      cases hq : a == '+' with
      | false => rfl
      | true =>
        have : a = '+' := by simpa using hq
        subst this
        exact absurd ha (by decide)
  unfold clean_phone_number
  simp only []
  rw [if_neg (by omega), if_neg (by omega), if_pos ⟨h, hplus⟩]
  have hstrip : pyStrip (joinSep ' ' (chunk4 ('+' :: s.filter Char.isDigit))) =
      joinSep ' ' (chunk4 ('+' :: s.filter Char.isDigit)) := by
    apply pyStrip_eq_self
    · intro x hx
      rw [joinSep_chunk4_head? _ (by simp)] at hx
      simp at hx
      rw [← hx]
      decide
    · intro x hx
      rw [joinSep_chunk4_getLast? _ (by simp)] at hx
      have hcc : ('+' :: s.filter Char.isDigit).getLast? =
          (s.filter Char.isDigit).getLast? := by
        cases hcl : s.filter Char.isDigit with
        | nil => exact absurd hcl hne
        | cons z zs => rw [List.getLast?_cons_cons]
      rw [hcc] at hx
      have hmem : x ∈ s.filter Char.isDigit := List.mem_of_mem_getLast? hx
      exact isDigit_not_pySpace x (List.of_mem_filter hmem)
  rw [hstrip]

/-- C10 (witness): evaluated at an input that already begins with a plus,
showing the plus is stripped with every other non-digit and a fresh plus is
prepended before the whole string is regrouped. -/
theorem c10_long_phone_plus_witness :
    (10 < ((str "+91 98765 43210").filter Char.isDigit).length) ∧
    clean_phone_number (str "+91") (str "+91 98765 43210") =
      Except.ok (str "+919 8765 4321 0") := by
  refine ⟨by decide, ?_⟩
  have h := c10_long_phone_plus (str "+91") (str "+91 98765 43210") (by decide)
  rw [h]
  rfl

/-- C8: `parse_name` trims its input and splits on whitespace runs; zero
tokens yield three empty strings, one token `t` yields `(t, "", t)`, two or
more tokens yield the first token, the remaining tokens rejoined with single
spaces, and the original trimmed string; and the two concrete examples of
the specification hold. -/
theorem c8_parse_name_spec (name : List Char) :
    (pySplit (pyStrip name) = [] → parse_name name = ([], [], [])) ∧
    (∀ t, pySplit (pyStrip name) = [t] → parse_name name = (t, [], t)) ∧
    (∀ t u rest, pySplit (pyStrip name) = t :: u :: rest →
      parse_name name = (t, joinSep ' ' (u :: rest), pyStrip name)) ∧
    parse_name (str "Madonna") = (str "Madonna", [], str "Madonna") ∧
    parse_name (str "Jane Mary Doe") =
      (str "Jane", str "Mary Doe", str "Jane Mary Doe") := by
  refine ⟨?_, ?_, ?_, by rfl, by rfl⟩
  · intro h
    unfold parse_name
    rw [h]
    rfl
  · intro t h
    unfold parse_name
    rw [h]
    rfl
  · intro t u rest h
    unfold parse_name
    rw [h]
    have h1 : ¬((t :: u :: rest).length = 1) := by simp
    rw [if_neg h1, if_pos (by simp)]
    rfl

/-- C8 (witness): the multi-token arm evaluated on a padded input,
exhibiting trimming, the rejoined last name, and the preserved full name. -/
theorem c8_parse_name_spec_witness :
    pySplit (pyStrip (str " Jane  Mary Doe ")) = [str "Jane", str "Mary", str "Doe"] ∧
    parse_name (str " Jane  Mary Doe ") =
      (str "Jane", str "Mary Doe", str "Jane  Mary Doe") := by
  refine ⟨by rfl, ?_⟩
  have h := (c8_parse_name_spec (str " Jane  Mary Doe ")).2.2.1
    (str "Jane") (str "Mary") [str "Doe"] (by rfl)
  rw [h]
  rfl

/-- A non-falsy optional string is a non-empty string. -/
theorem falsyOpt_false (o : Option (List Char)) (h : falsyOpt o = false) :
    ∃ s, o = some s ∧ s.isEmpty = false := by
  cases o with
  | none => simp [falsyOpt] at h
  | some s => exact ⟨s, rfl, h⟩

/-- A string whose `isEmpty` test fails is not the empty list. -/
theorem isEmpty_false_ne_nil (l : List Char) (h : l.isEmpty = false) : l ≠ [] := by
  cases l with
  | nil => simp at h
  | cons a as => simp

/-- Every value produced by `findRaw` is already stripped. -/
theorem findRaw_strip (row : RawRow) (names : List (List Char)) (v : List Char)
    (h : findRaw row names = some v) : pyStrip v = v := by
  unfold findRaw at h
  obtain ⟨kv, _, hv⟩ := Option.map_eq_some'.mp h
  rw [← hv]
  exact pyStrip_idem kv.2

/-- The row loop accounts for every input row exactly once. -/
theorem processRows_length (country_code : List Char) (rows : List RawRow) :
    ∀ n, (processRows country_code n rows).1.length +
      (processRows country_code n rows).2.length = rows.length := by
  induction rows with
  | nil => intro n; rfl
  | cons r rs ih =>
    intro n
    simp only [processRows]
    cases hv : validate_contact country_code r with
    | some c =>
      simp only [List.length_cons]
      have := ih (n + 1)
      omega
    | none =>
      simp only [List.length_cons]
      have := ih (n + 1)
      omega

/-- The accepted sequence of the row loop is the in-order `filterMap` of the
validator over the rows. -/
theorem processRows_fst (country_code : List Char) (rows : List RawRow) :
    ∀ n, (processRows country_code n rows).1 =
      rows.filterMap (validate_contact country_code) := by
  induction rows with
  | nil => intro n; rfl
  | cons r rs ih =>
    intro n
    simp only [processRows, List.filterMap_cons]
    cases hv : validate_contact country_code r with
    | some c => simp [ih (n + 1)]
    | none => simp [ih (n + 1)]

/-- The rejected sequence of the row loop is the in-order filter of the
numbered rows on which the validator fails. -/
theorem processRows_snd (country_code : List Char) (rows : List RawRow) :
    ∀ n, (processRows country_code n rows).2 =
      (enumFrom n rows).filter
        (fun p => (validate_contact country_code p.2).isNone) := by
  induction rows with
  | nil => intro n; rfl
  | cons r rs ih =>
    intro n
    simp only [processRows, enumFrom, List.filter_cons]
    cases hv : validate_contact country_code r with
    | some c => simp [hv, ih (n + 1)]
    | none => simp [hv, ih (n + 1)]

/-- C2: every Contact built by `validate_contact` has a non-empty, already
trimmed name and a phone that `clean_phone_number` accepted, stored in
normalized form; and a row whose name or phone field is absent or empty is
rejected via the `ValueError` `"Missing required fields: name or phone"`,
so no Contact is built for it. -/
theorem c2_contact_invariant (country_code : List Char) (row : RawRow) :
    (∀ c, validate_contact country_code row = some c →
      c.name ≠ [] ∧ pyStrip c.name = c.name ∧
      ∃ p, findRaw row [str "phone"] = some p ∧
        clean_phone_number country_code p = Except.ok c.phone) ∧
    ((falsyOpt (findRaw row [str "name"]) ||
        falsyOpt (findRaw row [str "phone"])) = true →
      validate_contact_ex country_code row =
        Except.error (str "Missing required fields: name or phone") ∧
      validate_contact country_code row = none) := by
  constructor
  · intro c hc
    unfold validate_contact at hc
    cases hex : validate_contact_ex country_code row with
    | error e => rw [hex] at hc; cases hc
    | ok c2 =>
      rw [hex] at hc
      cases hc
      unfold validate_contact_ex at hex
      simp only [] at hex
      split at hex
      · cases hex
      · rename_i hcond
        simp only [Bool.or_eq_true, not_or] at hcond
        obtain ⟨hcn, hcp⟩ := hcond
        obtain ⟨ns, hns, hnse⟩ :=
          falsyOpt_false _ (by simpa using hcn)
        obtain ⟨p, hp, hpe⟩ :=
          falsyOpt_false _ (by simpa using hcp)
        rw [hp] at hex
        simp only [Option.getD_some] at hex
        cases hclean : clean_phone_number country_code p with
        | error e => rw [hclean] at hex; cases hex
        | ok cleaned =>
          rw [hclean] at hex
          cases hex
          rw [hns]
          simp only [Option.getD_some]
          exact ⟨isEmpty_false_ne_nil ns hnse, findRaw_strip row _ ns hns,
            p, hp, hclean⟩
  · intro hf
    constructor
    · unfold validate_contact_ex
      rw [if_pos hf]
    · unfold validate_contact validate_contact_ex
      rw [if_pos hf]

/-- C2 (witness): both halves evaluated on concrete rows, including a
column key needing case- and whitespace-insensitive matching. -/
theorem c2_contact_invariant_witness :
    (validate_contact (str "+91")
        [(str " Name ", str " John Smith "), (str "phone", str "9876543210")] =
      some ⟨str "John Smith", str "+91  9876 5432 10",
        none, none, none, none, none, none⟩) ∧
    ((str "John Smith") ≠ [] ∧ pyStrip (str "John Smith") = str "John Smith" ∧
      ∃ p, findRaw [(str " Name ", str " John Smith "), (str "phone", str "9876543210")]
          [str "phone"] = some p ∧
        clean_phone_number (str "+91") p = Except.ok (str "+91  9876 5432 10")) ∧
    (validate_contact_ex (str "+91") [(str "name", str ""), (str "phone", str "123")] =
        Except.error (str "Missing required fields: name or phone") ∧
      validate_contact (str "+91") [(str "name", str ""), (str "phone", str "123")] = none) := by
  refine ⟨by rfl, ?_, ?_⟩
  · exact (c2_contact_invariant (str "+91")
      [(str " Name ", str " John Smith "), (str "phone", str "9876543210")]).1
      ⟨str "John Smith", str "+91  9876 5432 10", none, none, none, none, none, none⟩
      (by rfl)
  · exact (c2_contact_invariant (str "+91")
      [(str "name", str ""), (str "phone", str "123")]).2 (by rfl)

/-- C3: `validate_contact` is a total function into `Option Contact`: every
raised error of its body (modelled by `validate_contact_ex`) is converted to
the rejection `none`, never propagated, and consequently the row loop
accounts for every row of the batch, so one malformed row never aborts the
processing of the remaining rows. -/
theorem c3_row_isolation (country_code : List Char) :
    (∀ row, (∃ c, validate_contact country_code row = some c) ∨
      validate_contact country_code row = none) ∧
    (∀ row e, validate_contact_ex country_code row = Except.error e →
      validate_contact country_code row = none) ∧
    (∀ rows, (read_contacts country_code rows).1.length +
      (read_contacts country_code rows).2.length = rows.length) := by
  refine ⟨?_, ?_, ?_⟩
  · intro row
    cases h : validate_contact country_code row with
    | none => exact Or.inr rfl
    | some c => exact Or.inl ⟨c, rfl⟩
  · intro row e h
    unfold validate_contact
    rw [h]
  · intro rows
    exact processRows_length country_code rows 2

/-- C3 (witness): the error-to-rejection conversion evaluated on a row with
no name column. -/
theorem c3_row_isolation_witness :
    validate_contact_ex (str "+91") [(str "phone", str "12")] =
      Except.error (str "Missing required fields: name or phone") ∧
    validate_contact (str "+91") [(str "phone", str "12")] = none := by
  refine ⟨by rfl, ?_⟩
  exact (c3_row_isolation (str "+91")).2.1 [(str "phone", str "12")]
    (str "Missing required fields: name or phone") (by rfl)

/-- C5: the batch reader routes every row through the validator exactly
once, partitioning the rows into the in-order accepted contacts and the
in-order rejected rows numbered from 2; on the specification's two-row
example it yields exactly one Contact and one RejectedRow at row number 3. -/
theorem c5_read_contacts_partition (country_code : List Char) (rows : List RawRow) :
    (read_contacts country_code rows).1 =
      rows.filterMap (validate_contact country_code) ∧
    (read_contacts country_code rows).2 =
      (enumFrom 2 rows).filter
        (fun p => (validate_contact country_code p.2).isNone) ∧
    (read_contacts country_code rows).1.length +
      (read_contacts country_code rows).2.length = rows.length ∧
    read_contacts (str "+91")
        [[(str "name", str "John Smith"), (str "phone", str "9876543210")],
         [(str "name", str ""), (str "phone", str "123")]] =
      ([⟨str "John Smith", str "+91  9876 5432 10",
          none, none, none, none, none, none⟩],
       [(3, [(str "name", str ""), (str "phone", str "123")])]) :=
  ⟨processRows_fst country_code rows 2, processRows_snd country_code rows 2,
    processRows_length country_code rows 2, by rfl⟩

/-- Two characters differ when a boolean predicate separates them. -/
theorem bne_of_pred_false (c x : Char) (p : Char → Bool) (hp : p c = true)
    (hx : p x = false) : (c == x) = false := by
  cases hq : c == x with
  | false => rfl
  | true =>
    have : c = x := by simpa using hq
    subst this
    rw [hp] at hx
    cases hx

/-- `takeWhile` over an append whose left part satisfies the predicate and
whose right part starts by failing it returns exactly the left part. -/
theorem takeWhile_append_eq (p : Char → Bool) :
    ∀ (l r : List Char), (∀ c ∈ l, p c = true) →
      (∀ x, r.head? = some x → p x = false) → (l ++ r).takeWhile p = l := by
  intro l
  induction l with
  | nil =>
    intro r _ hr
    cases r with
    | nil => rfl
    | cons a as =>
      have ha := hr a (by simp)
      simp [List.takeWhile_cons, ha]
  | cons a as ih =>
    intro r hl hr
    have ha : p a = true := hl a (by simp)
    simp only [List.cons_append, List.takeWhile_cons, ha, if_true]
    rw [ih r (fun c hc => hl c (by simp [hc])) hr]

/-- `dropWhile` over the same kind of append returns exactly the right part. -/
theorem dropWhile_append_eq (p : Char → Bool) :
    ∀ (l r : List Char), (∀ c ∈ l, p c = true) →
      (∀ x, r.head? = some x → p x = false) → (l ++ r).dropWhile p = r := by
  intro l
  induction l with
  | nil => intro r _ hr; exact dropWhile_eq_self_of_head? p r hr
  | cons a as ih =>
    intro r hl hr
    have ha : p a = true := hl a (by simp)
    simp only [List.cons_append, List.dropWhile_cons, ha, if_true]
    exact ih r (fun c hc => hl c (by simp [hc])) hr

/-- The matcher `emailMatch` recognizes exactly the language of the email
regular expression as described by `EmailShape`. -/
theorem emailMatch_iff (s : List Char) : emailMatch s = true ↔ EmailShape s := by
  constructor
  · intro h
    unfold emailMatch at h
    simp only [] at h
    split at h
    · cases h
    · rename_i hd dom hdrop
      split at h
      · cases h
      · rename_i hd2 dRev hdrop2
        simp only [Bool.and_eq_true] at h
        obtain ⟨⟨⟨⟨⟨h1, h2⟩, h3⟩, h4⟩, h5⟩, h6⟩ := h
        have hhd : hd = '@' := by
          have := dropWhile_head?_false _ s hd (by rw [hdrop]; rfl)
          simpa using this
        subst hhd
        have hhd2 : hd2 = '.' := by
          have := dropWhile_head?_false _ dom.reverse hd2 (by rw [hdrop2]; rfl)
          simpa using this
        subst hhd2
        have hs : s = s.takeWhile (fun c => !(c == '@')) ++ '@' :: dom := by
          rw [← hdrop]
          exact (List.takeWhile_append_dropWhile _ s).symm
        have hdomrev : dom.reverse =
            dom.reverse.takeWhile (fun c => !(c == '.')) ++ '.' :: dRev := by
          rw [← hdrop2]
          exact (List.takeWhile_append_dropWhile _ dom.reverse).symm
        have hdom : dom = dRev.reverse ++
            '.' :: (dom.reverse.takeWhile (fun c => !(c == '.'))).reverse := by
          have := congrArg List.reverse hdomrev
          simpa [List.reverse_append] using this
        refine ⟨s.takeWhile (fun c => !(c == '@')), dRev.reverse,
          (dom.reverse.takeWhile (fun c => !(c == '.'))).reverse,
          ?_, ?_, ?_, ?_, ?_, ?_, ?_⟩
        · rw [← hdom]; exact hs
        · exact isEmpty_false_ne_nil _ (by simpa using h1)
        · exact fun c hc => (List.all_eq_true.mp h2) c hc
        · exact isEmpty_false_ne_nil _ (by simpa using h3)
        · exact fun c hc => (List.all_eq_true.mp h4) c hc
        · exact of_decide_eq_true h5
        · exact fun c hc => (List.all_eq_true.mp h6) c hc
  · intro hsh
    obtain ⟨lp, d, t, hs, hlp, hlpc, hd, hdc, htl, htc⟩ := hsh
    subst hs
    unfold emailMatch
    simp only []
    have hq : ∀ c ∈ lp, (!(c == '@')) = true := by
      intro c hc
      simp [bne_of_pred_false c '@' isLocalChar (hlpc c hc) (by decide)]
    have hq2 : ∀ x : Char, ('@' :: (d ++ '.' :: t)).head? = some x →
        (!(x == '@')) = false := by
      intro x hx
      simp at hx
      rw [← hx]
      simp
    rw [dropWhile_append_eq (fun c => !(c == '@')) lp ('@' :: (d ++ '.' :: t)) hq hq2]
    rw [takeWhile_append_eq (fun c => !(c == '@')) lp ('@' :: (d ++ '.' :: t)) hq hq2]
    simp only []
    have hrev : (d ++ '.' :: t).reverse = t.reverse ++ '.' :: d.reverse := by
      simp [List.reverse_append]
    rw [hrev]
    have hq3 : ∀ c ∈ t.reverse, (!(c == '.')) = true := by
      intro c hc
      simp [bne_of_pred_false c '.' Char.isAlpha (htc c (by simpa using hc)) (by decide)]
    have hq4 : ∀ x : Char, ('.' :: d.reverse).head? = some x →
        (!(x == '.')) = false := by
      intro x hx
      simp at hx
      rw [← hx]
      simp
    rw [dropWhile_append_eq (fun c => !(c == '.')) t.reverse ('.' :: d.reverse) hq3 hq4]
    rw [takeWhile_append_eq (fun c => !(c == '.')) t.reverse ('.' :: d.reverse) hq3 hq4]
    simp only [List.reverse_reverse, Bool.and_eq_true, List.all_eq_true]
    refine ⟨⟨⟨⟨⟨?_, fun c hc => hlpc c hc⟩, ?_⟩, fun c hc => hdc c hc⟩, ?_⟩,
      fun c hc => htc c hc⟩
    · simpa using hlp
    · simpa using hd
    · exact decide_eq_true htl

/-- C7: `validate_email` returns `None` unchanged on `None` or the empty
string; otherwise it trims the address and returns the trimmed address
exactly when it belongs to the language of the pattern (characterized by
`EmailShape`), returning `None` on mismatch; total, so a malformed email
never rejects the row; and both concrete examples of the specification
hold. -/
theorem c7_validate_email (e : List Char) (hne : e.isEmpty = false) :
    validate_email none = none ∧
    validate_email (some []) = none ∧
    (EmailShape (pyStrip e) → validate_email (some e) = some (pyStrip e)) ∧
    (¬EmailShape (pyStrip e) → validate_email (some e) = none) ∧
    validate_email (some (str "a@b.co")) = some (str "a@b.co") ∧
    validate_email (some (str "not-an-email")) = none := by
  have hsome : ∀ x : List Char, validate_email (some x) =
      if x.isEmpty = true then none
      else if emailMatch (pyStrip x) = true then some (pyStrip x) else none :=
    fun x => rfl
  refine ⟨rfl, rfl, ?_, ?_, by rfl, by rfl⟩
  · intro h
    rw [hsome e, if_neg (by simp [hne]),
      if_pos ((emailMatch_iff (pyStrip e)).mpr h)]
  · intro h
    rw [hsome e, if_neg (by simp [hne]),
      if_neg (fun hm => h ((emailMatch_iff (pyStrip e)).mp hm))]

/-- C7 (witness): evaluated on a padded valid address and on the
specification's invalid example. -/
theorem c7_validate_email_witness :
    ((str " a@b.co ").isEmpty = false) ∧
    validate_email (some (str " a@b.co ")) = some (str "a@b.co") ∧
    validate_email (some (str "not-an-email")) = none := by
  refine ⟨by decide, ?_, ?_⟩
  · have hshape : EmailShape (pyStrip (str " a@b.co ")) :=
      ⟨str "a", str "b", str "co", by decide, by decide, by decide, by decide,
        by decide, by decide, by decide⟩
    have h := (c7_validate_email (str " a@b.co ") (by decide)).2.2.1 hshape
    rw [h]
    rfl
  · exact (c7_validate_email (str "not-an-email") (by decide)).2.2.2.2.2

/-- Backing up never changes the content of the output file. -/
theorem backup_file_output (conv : Converter) (fs : FS) :
    (backup_file conv fs).output = fs.output := by
  unfold backup_file
  rcases h : fs.output with _ | content
  · exact h
  · rcases hb : conv.backup
    · exact h
    · simp [hb]

/-- C9: a missing input path makes the orchestrator fail with
`InputNotFoundError` leaving the whole file system untouched, and a batch
with zero valid contacts makes it fail with `EmptyResultError` with the
output file neither created nor modified; in both cases no output is
written once the fatal condition is detected. -/
theorem c9_fatal_no_output (conv : Converter) (fs : FS) :
    (fs.inputRows = none →
      convert_to_vcard conv fs = (Except.error ConvError.inputNotFound, fs)) ∧
    (∀ rows, fs.inputRows = some rows →
      (read_contacts conv.country_code rows).1 = [] →
      (convert_to_vcard conv fs).1 = Except.error ConvError.emptyResult ∧
      (convert_to_vcard conv fs).2.output = fs.output) := by
  obtain ⟨ir, outp, bks⟩ := fs
  constructor
  · intro h
    have h2 : ir = none := h
    subst h2
    rfl
  · intro rows hrows hempty
    have h2 : ir = some rows := hrows
    subst h2
    have heq : convert_to_vcard conv ⟨some rows, outp, bks⟩ =
        if (read_contacts conv.country_code rows).1.isEmpty = true
        then (Except.error ConvError.emptyResult,
          backup_file conv ⟨some rows, outp, bks⟩)
        else (Except.ok (),
          ⟨(backup_file conv ⟨some rows, outp, bks⟩).inputRows,
           some (joinSep '\n' ((read_contacts conv.country_code rows).1.map
             (create_vcard_entry conv))),
           (backup_file conv ⟨some rows, outp, bks⟩).backups⟩) := rfl
    have hcond : (read_contacts conv.country_code rows).1.isEmpty = true := by
      rw [hempty]
      rfl
    rw [heq, if_pos hcond]
    exact ⟨rfl, backup_file_output conv ⟨some rows, outp, bks⟩⟩

/-- C9 (witness): both fatal cases evaluated on concrete states, with a
pre-existing output file that stays unchanged. -/
theorem c9_fatal_no_output_witness :
    convert_to_vcard ⟨str "+91", VCardVersion.V3_0, [], true⟩
        ⟨none, some (str "old"), []⟩ =
      (Except.error ConvError.inputNotFound, ⟨none, some (str "old"), []⟩) ∧
    (convert_to_vcard ⟨str "+91", VCardVersion.V3_0, [], true⟩
        ⟨some [[(str "name", str ""), (str "phone", str "123")]],
         some (str "old"), []⟩).1 = Except.error ConvError.emptyResult ∧
    (convert_to_vcard ⟨str "+91", VCardVersion.V3_0, [], true⟩
        ⟨some [[(str "name", str ""), (str "phone", str "123")]],
         some (str "old"), []⟩).2.output = some (str "old") := by
  refine ⟨?_, ?_, ?_⟩
  · exact (c9_fatal_no_output ⟨str "+91", VCardVersion.V3_0, [], true⟩
      ⟨none, some (str "old"), []⟩).1 rfl
  · exact ((c9_fatal_no_output ⟨str "+91", VCardVersion.V3_0, [], true⟩
      ⟨some [[(str "name", str ""), (str "phone", str "123")]],
       some (str "old"), []⟩).2 [[(str "name", str ""), (str "phone", str "123")]]
      rfl (by rfl)).1
  · exact ((c9_fatal_no_output ⟨str "+91", VCardVersion.V3_0, [], true⟩
      ⟨some [[(str "name", str ""), (str "phone", str "123")]],
       some (str "old"), []⟩).2 [[(str "name", str ""), (str "phone", str "123")]]
      rfl (by rfl)).2

/-- Line-break count distributes over append. -/
theorem nlCount_append (a b : List Char) :
    nlCount (a ++ b) = nlCount a + nlCount b := by
  simp [nlCount, List.filter_append]

/-- A string without line breaks does not contain one. -/
theorem noNL_not_mem (x : List Char) (hx : noNL x) : '\n' ∉ x := by
  intro hmem
  have h1 : '\n' ∈ x.filter (fun c => c == '\n') :=
    List.mem_filter.mpr ⟨hmem, by simp⟩
  unfold noNL nlCount at hx
  rw [List.length_eq_zero] at hx
  rw [hx] at h1
  simp at h1

/-- The last character of a string without line breaks is not one. -/
theorem noNL_getLast?_ne (x : List Char) (hx : noNL x) : x.getLast? ≠ some '\n' :=
  fun h => noNL_not_mem x hx (List.mem_of_mem_getLast? h)

/-- Appending to the left preserves a known last character. -/
theorem getLast?_append_some (a b : List Char) (x : Char) (h : b.getLast? = some x) :
    (a ++ b).getLast? = some x := by
  have hb : b ≠ [] := by intro he; rw [he] at h; simp at h
  rw [List.getLast?_append_of_ne_nil _ hb]
  exact h

/-- A truthy optional field holds a non-empty string. -/
theorem truthy_optVal_ne_nil (o : Option (List Char)) (h : truthyOpt o = true) :
    optVal o ≠ [] := by
  cases o with
  | none => simp [truthyOpt] at h
  | some s =>
    simp only [truthyOpt] at h
    exact isEmpty_false_ne_nil s (by simpa using h)

/-- Appending nothing, or one line whose body is non-empty and free of
line breaks at its end, preserves `NoBlankEnd`. -/
theorem NoBlankEnd_append (b e : List Char) (hb : NoBlankEnd b)
    (he : e = [] ∨ ∃ x, e = x ++ ['\n'] ∧ x ≠ [] ∧ x.getLast? ≠ some '\n') :
    NoBlankEnd (b ++ e) := by
  rcases he with rfl | ⟨x, rfl, hxne, hxl⟩
  · simpa using hb
  · constructor
    · exact getLast?_append_some _ _ _ (by simp)
    · have h1 : b ++ (x ++ ['\n']) = (b ++ x) ++ ['\n'] := by simp
      rw [h1]
      have h2 : ((b ++ x) ++ ['\n']).dropLast = b ++ x := by simp
      rw [h2, List.getLast?_append_of_ne_nil _ hxne]
      exact hxl

/-- A block ending in a colon-terminated tag, a string free of line breaks,
and a line break satisfies `NoBlankEnd`. -/
theorem NoBlankEnd_tail (y pz : List Char) (hy : y.getLast? = some ':')
    (hp : noNL pz) : NoBlankEnd (y ++ (pz ++ ['\n'])) := by
  constructor
  · exact getLast?_append_some _ _ _ (by simp)
  · have h1 : y ++ (pz ++ ['\n']) = (y ++ pz) ++ ['\n'] := by simp
    rw [h1]
    have h2 : ((y ++ pz) ++ ['\n']).dropLast = y ++ pz := by simp
    rw [h2]
    by_cases hpz : pz = []
    · subst hpz
      simp only [List.append_nil]
      rw [hy]
      decide
    · rw [List.getLast?_append_of_ne_nil _ hpz]
      exact noNL_getLast?_ne pz hp

/-- Properties of an optional vCard line: when its condition holds it is one
line ending in a line break; otherwise it is empty; and in either case it
can be appended after a `NoBlankEnd` block. -/
theorem optLine_props (cond : Bool) (x e : List Char)
    (hx : cond = true → nlCount x = 0 ∧ x ≠ [] ∧ x.getLast? ≠ some '\n')
    (hcase : e = if cond = true then x ++ ['\n'] else []) :
    (cond = true → nlCount e = 1 ∧ e.getLast? = some '\n') ∧
    (cond = false → e = []) ∧
    (e = [] ∨ ∃ z, e = z ++ ['\n'] ∧ z ≠ [] ∧ z.getLast? ≠ some '\n') := by
  subst hcase
  cases hc : cond with
  | true =>
    obtain ⟨h1, h2, h3⟩ := hx hc
    rw [if_pos rfl]
    refine ⟨?_, ?_, ?_⟩
    · intro _
      refine ⟨?_, by simp⟩
      rw [nlCount_append, h1]
      rfl
    · intro hf
      exact nomatch hf
    · exact Or.inr ⟨x, rfl, h2, h3⟩
  | false =>
    rw [if_neg (by simp)]
    refine ⟨?_, ?_, ?_⟩
    · intro ht
      exact nomatch ht
    · intro _
      rfl
    · exact Or.inl rfl

/-- C6 (counterexample): a Contact whose notes hold an embedded line break
is rendered with a notes chunk spanning two lines, so the optional notes
line is not "exactly one line terminated by a line break" for every
Contact. -/
theorem c6_multiline_note_cex :
    truthyOpt (some (str "a\nb")) = true ∧
    create_vcard_entry ⟨str "+91", VCardVersion.V3_0, [], true⟩
        ⟨str "Ann Lee", str "+91  9876 5432 10", none, none, none, none,
         some (str "a\nb"), none⟩ =
      str "BEGIN:VCARD\nVERSION:3.0\nN:Lee;Ann;;;\nFN:Ann Lee\nTEL;TYPE=CELL:+91  9876 5432 10\nNOTE:a\nb\nEND:VCARD" ∧
    nlCount (str "NOTE:a\nb\n") = 2 :=
  ⟨rfl, by rfl, by rfl⟩

/-- Appending the five optional line chunks after a `NoBlankEnd` header
keeps `NoBlankEnd`. -/
theorem NoBlankEnd_five (pre eF oF tF aF nF : List Char)
    (h0 : NoBlankEnd pre)
    (h1 : eF = [] ∨ ∃ z, eF = z ++ ['\n'] ∧ z ≠ [] ∧ z.getLast? ≠ some '\n')
    (h2 : oF = [] ∨ ∃ z, oF = z ++ ['\n'] ∧ z ≠ [] ∧ z.getLast? ≠ some '\n')
    (h3 : tF = [] ∨ ∃ z, tF = z ++ ['\n'] ∧ z ≠ [] ∧ z.getLast? ≠ some '\n')
    (h4 : aF = [] ∨ ∃ z, aF = z ++ ['\n'] ∧ z ≠ [] ∧ z.getLast? ≠ some '\n')
    (h5 : nF = [] ∨ ∃ z, nF = z ++ ['\n'] ∧ z ≠ [] ∧ z.getLast? ≠ some '\n') :
    NoBlankEnd (pre ++ (eF ++ (oF ++ (tF ++ (aF ++ nF))))) := by
  have hassoc : pre ++ (eF ++ (oF ++ (tF ++ (aF ++ nF)))) =
      ((((pre ++ eF) ++ oF) ++ tF) ++ aF) ++ nF := by
    simp [List.append_assoc]
  rw [hassoc]
  exact NoBlankEnd_append _ _ (NoBlankEnd_append _ _ (NoBlankEnd_append _ _
    (NoBlankEnd_append _ _ (NoBlankEnd_append _ _ h0 h1) h2) h3) h4) h5

/-- C6 (amended): for every Contact whose phone and optional attribute
values contain no line-break characters, and either dialect, the rendered
card is a header block ending with the phone line, followed by the optional
email, organization, title, address and notes lines in that fixed order,
followed by the end marker; each optional line is emitted exactly when the
corresponding attribute is non-empty, as one line terminated by a line
break; and the card ends with the END:VCARD line with no trailing blank
line before it. -/
theorem c6_card_structure (conv : Converter) (contact : Contact)
    (hp : noNL contact.phone)
    (hem : noNL (optVal contact.email))
    (hor : noNL (optVal contact.organization))
    (hti : noNL (optVal contact.title))
    (had : noNL (optVal contact.address))
    (hno : noNL (optVal contact.notes)) :
    ∃ pre eF oF tF aF nF,
      create_vcard_entry conv contact =
        pre ++ (eF ++ (oF ++ (tF ++ (aF ++ (nF ++ str "END:VCARD"))))) ∧
      pre.getLast? = some '\n' ∧
      (conv.vcard_version = VCardVersion.V3_0 →
        ∃ q, pre = q ++ (str "TEL;TYPE=CELL:" ++ (contact.phone ++ ['\n']))) ∧
      (conv.vcard_version = VCardVersion.V2_1 →
        ∃ q, pre = q ++ (str "TEL;CELL;PREF:" ++ (contact.phone ++ ['\n']))) ∧
      (truthyOpt contact.email = true → nlCount eF = 1 ∧ eF.getLast? = some '\n') ∧
      (truthyOpt contact.email = false → eF = []) ∧
      (truthyOpt contact.organization = true → nlCount oF = 1 ∧ oF.getLast? = some '\n') ∧
      (truthyOpt contact.organization = false → oF = []) ∧
      (truthyOpt contact.title = true → nlCount tF = 1 ∧ tF.getLast? = some '\n') ∧
      (truthyOpt contact.title = false → tF = []) ∧
      (truthyOpt contact.address = true → nlCount aF = 1 ∧ aF.getLast? = some '\n') ∧
      (truthyOpt contact.address = false → aF = []) ∧
      (truthyOpt contact.notes = true → nlCount nF = 1 ∧ nF.getLast? = some '\n') ∧
      (truthyOpt contact.notes = false → nF = []) ∧
      NoBlankEnd (pre ++ (eF ++ (oF ++ (tF ++ (aF ++ nF))))) := by
  have hem' : nlCount (optVal contact.email) = 0 := hem
  have hor' : nlCount (optVal contact.organization) = 0 := hor
  have hti' : nlCount (optVal contact.title) = 0 := hti
  have had' : nlCount (optVal contact.address) = 0 := had
  have hno' : nlCount (optVal contact.notes) = 0 := hno
  have hOx : truthyOpt contact.organization = true →
      nlCount (str "ORG:" ++ optVal contact.organization) = 0 ∧
      (str "ORG:" ++ optVal contact.organization) ≠ [] ∧
      (str "ORG:" ++ optVal contact.organization).getLast? ≠ some '\n' := by
    intro hc
    refine ⟨?_, ?_, ?_⟩
    · rw [nlCount_append, hor']
      decide
    · intro hnil
      rw [List.append_eq_nil] at hnil
      exact absurd hnil.1 (by decide)
    · rw [List.getLast?_append_of_ne_nil _ (truthy_optVal_ne_nil _ hc)]
      exact noNL_getLast?_ne _ hor
  have hO := optLine_props (truthyOpt contact.organization)
    (str "ORG:" ++ optVal contact.organization)
    (if truthyOpt contact.organization = true then
      (str "ORG:" ++ optVal contact.organization) ++ ['\n'] else []) hOx rfl
  have hTx : truthyOpt contact.title = true →
      nlCount (str "TITLE:" ++ optVal contact.title) = 0 ∧
      (str "TITLE:" ++ optVal contact.title) ≠ [] ∧
      (str "TITLE:" ++ optVal contact.title).getLast? ≠ some '\n' := by
    intro hc
    refine ⟨?_, ?_, ?_⟩
    · rw [nlCount_append, hti']
      decide
    · intro hnil
      rw [List.append_eq_nil] at hnil
      exact absurd hnil.1 (by decide)
    · rw [List.getLast?_append_of_ne_nil _ (truthy_optVal_ne_nil _ hc)]
      exact noNL_getLast?_ne _ hti
  have hT := optLine_props (truthyOpt contact.title)
    (str "TITLE:" ++ optVal contact.title)
    (if truthyOpt contact.title = true then
      (str "TITLE:" ++ optVal contact.title) ++ ['\n'] else []) hTx rfl
  have hNx : truthyOpt contact.notes = true →
      nlCount (str "NOTE:" ++ optVal contact.notes) = 0 ∧
      (str "NOTE:" ++ optVal contact.notes) ≠ [] ∧
      (str "NOTE:" ++ optVal contact.notes).getLast? ≠ some '\n' := by
    intro hc
    refine ⟨?_, ?_, ?_⟩
    · rw [nlCount_append, hno']
      decide
    · intro hnil
      rw [List.append_eq_nil] at hnil
      exact absurd hnil.1 (by decide)
    · rw [List.getLast?_append_of_ne_nil _ (truthy_optVal_ne_nil _ hc)]
      exact noNL_getLast?_ne _ hno
  have hN := optLine_props (truthyOpt contact.notes)
    (str "NOTE:" ++ optVal contact.notes)
    (if truthyOpt contact.notes = true then
      (str "NOTE:" ++ optVal contact.notes) ++ ['\n'] else []) hNx rfl
  cases hv : conv.vcard_version with
  | V3_0 =>
    have hEx : truthyOpt contact.email = true →
        nlCount (str "EMAIL" ++ (str ";TYPE=INTERNET" ++
          (str ":" ++ optVal contact.email))) = 0 ∧
        (str "EMAIL" ++ (str ";TYPE=INTERNET" ++
          (str ":" ++ optVal contact.email))) ≠ [] ∧
        (str "EMAIL" ++ (str ";TYPE=INTERNET" ++
          (str ":" ++ optVal contact.email))).getLast? ≠ some '\n' := by
      intro hc
      refine ⟨?_, ?_, ?_⟩
      · rw [nlCount_append, nlCount_append, nlCount_append, hem']
        decide
      · intro hnil
        rw [List.append_eq_nil] at hnil
        exact absurd hnil.1 (by decide)
      · have hre : str "EMAIL" ++ (str ";TYPE=INTERNET" ++
            (str ":" ++ optVal contact.email)) =
            (str "EMAIL" ++ (str ";TYPE=INTERNET" ++ str ":")) ++
              optVal contact.email := by
          simp [List.append_assoc]
        rw [hre, List.getLast?_append_of_ne_nil _ (truthy_optVal_ne_nil _ hc)]
        exact noNL_getLast?_ne _ hem
    have hE := optLine_props (truthyOpt contact.email)
      (str "EMAIL" ++ (str ";TYPE=INTERNET" ++ (str ":" ++ optVal contact.email)))
      (if truthyOpt contact.email = true then
        (str "EMAIL" ++ (str ";TYPE=INTERNET" ++
          (str ":" ++ optVal contact.email))) ++ ['\n'] else []) hEx rfl
    have hAx : truthyOpt contact.address = true →
        nlCount (str "ADR" ++ (str ";TYPE=HOME" ++ (str ":;;" ++
          (optVal contact.address ++ str ";;;;")))) = 0 ∧
        (str "ADR" ++ (str ";TYPE=HOME" ++ (str ":;;" ++
          (optVal contact.address ++ str ";;;;")))) ≠ [] ∧
        (str "ADR" ++ (str ";TYPE=HOME" ++ (str ":;;" ++
          (optVal contact.address ++ str ";;;;")))).getLast? ≠ some '\n' := by
      intro _
      refine ⟨?_, ?_, ?_⟩
      · rw [nlCount_append, nlCount_append, nlCount_append, nlCount_append, had']
        decide
      · intro hnil
        rw [List.append_eq_nil] at hnil
        exact absurd hnil.1 (by decide)
      · have hlast : (str "ADR" ++ (str ";TYPE=HOME" ++ (str ":;;" ++
            (optVal contact.address ++ str ";;;;")))).getLast? = some ';' :=
          getLast?_append_some _ _ _ (getLast?_append_some _ _ _
            (getLast?_append_some _ _ _ (getLast?_append_some _ _ _ (by decide))))
        rw [hlast]
        decide
    have hA := optLine_props (truthyOpt contact.address)
      (str "ADR" ++ (str ";TYPE=HOME" ++ (str ":;;" ++
        (optVal contact.address ++ str ";;;;"))))
      (if truthyOpt contact.address = true then
        (str "ADR" ++ (str ";TYPE=HOME" ++ (str ":;;" ++
          (optVal contact.address ++ str ";;;;")))) ++ ['\n'] else []) hAx rfl
    refine ⟨(str "BEGIN:VCARD\nVERSION:3.0\nN:" ++
        ((parse_name contact.name).2.1 ++ (str ";" ++
          ((parse_name contact.name).1 ++ (str ";;;\nFN:" ++
            ((parse_name contact.name).2.2 ++ (conv.name_suffix ++ str "\n"))))))) ++
        (str "TEL;TYPE=CELL:" ++ (contact.phone ++ ['\n'])),
      if truthyOpt contact.email = true then
        (str "EMAIL" ++ (str ";TYPE=INTERNET" ++
          (str ":" ++ optVal contact.email))) ++ ['\n'] else [],
      if truthyOpt contact.organization = true then
        (str "ORG:" ++ optVal contact.organization) ++ ['\n'] else [],
      if truthyOpt contact.title = true then
        (str "TITLE:" ++ optVal contact.title) ++ ['\n'] else [],
      if truthyOpt contact.address = true then
        (str "ADR" ++ (str ";TYPE=HOME" ++ (str ":;;" ++
          (optVal contact.address ++ str ";;;;")))) ++ ['\n'] else [],
      if truthyOpt contact.notes = true then
        (str "NOTE:" ++ optVal contact.notes) ++ ['\n'] else [],
      ?_, ?_, ?_, ?_, hE.1, hE.2.1, hO.1, hO.2.1, hT.1, hT.2.1,
      hA.1, hA.2.1, hN.1, hN.2.1, ?_⟩
    · simp only [create_vcard_entry, hv, eq_self_iff_true, if_true,
        eq_false (show ¬(VCardVersion.V3_0 = VCardVersion.V2_1) from by decide),
        if_false]
      rw [show str "\nTEL;TYPE=CELL:" = str "\n" ++ str "TEL;TYPE=CELL:" from rfl]
      simp [List.append_assoc]
    · exact getLast?_append_some _ _ _ (getLast?_append_some _ _ _ (by simp))
    · intro _
      exact ⟨_, rfl⟩
    · intro hx
      exact absurd hx (by decide)
    · have h0 : NoBlankEnd ((str "BEGIN:VCARD\nVERSION:3.0\nN:" ++
          ((parse_name contact.name).2.1 ++ (str ";" ++
            ((parse_name contact.name).1 ++ (str ";;;\nFN:" ++
              ((parse_name contact.name).2.2 ++ (conv.name_suffix ++ str "\n"))))))) ++
          (str "TEL;TYPE=CELL:" ++ (contact.phone ++ ['\n']))) := by
        have hre : (str "BEGIN:VCARD\nVERSION:3.0\nN:" ++
            ((parse_name contact.name).2.1 ++ (str ";" ++
              ((parse_name contact.name).1 ++ (str ";;;\nFN:" ++
                ((parse_name contact.name).2.2 ++ (conv.name_suffix ++ str "\n"))))))) ++
            (str "TEL;TYPE=CELL:" ++ (contact.phone ++ ['\n'])) =
            ((str "BEGIN:VCARD\nVERSION:3.0\nN:" ++
              ((parse_name contact.name).2.1 ++ (str ";" ++
                ((parse_name contact.name).1 ++ (str ";;;\nFN:" ++
                  ((parse_name contact.name).2.2 ++ (conv.name_suffix ++ str "\n"))))))) ++
              str "TEL;TYPE=CELL:") ++ (contact.phone ++ ['\n']) := by
          simp [List.append_assoc]
        rw [hre]
        exact NoBlankEnd_tail _ _ (getLast?_append_some _ _ _ (by decide)) hp
      exact NoBlankEnd_five _ _ _ _ _ _ h0 hE.2.2 hO.2.2 hT.2.2 hA.2.2 hN.2.2
  | V2_1 =>
    have hEx : truthyOpt contact.email = true →
        nlCount (str "EMAIL" ++ (str ":" ++ optVal contact.email)) = 0 ∧
        (str "EMAIL" ++ (str ":" ++ optVal contact.email)) ≠ [] ∧
        (str "EMAIL" ++ (str ":" ++ optVal contact.email)).getLast? ≠ some '\n' := by
      intro hc
      refine ⟨?_, ?_, ?_⟩
      · rw [nlCount_append, nlCount_append, hem']
        decide
      · intro hnil
        rw [List.append_eq_nil] at hnil
        exact absurd hnil.1 (by decide)
      · have hre : str "EMAIL" ++ (str ":" ++ optVal contact.email) =
            (str "EMAIL" ++ str ":") ++ optVal contact.email := by
          simp [List.append_assoc]
        rw [hre, List.getLast?_append_of_ne_nil _ (truthy_optVal_ne_nil _ hc)]
        exact noNL_getLast?_ne _ hem
    have hE := optLine_props (truthyOpt contact.email)
      (str "EMAIL" ++ (str ":" ++ optVal contact.email))
      (if truthyOpt contact.email = true then
        (str "EMAIL" ++ (str ":" ++ optVal contact.email)) ++ ['\n'] else []) hEx rfl
    have hAx : truthyOpt contact.address = true →
        nlCount (str "ADR" ++ (str ":;;" ++
          (optVal contact.address ++ str ";;;;"))) = 0 ∧
        (str "ADR" ++ (str ":;;" ++
          (optVal contact.address ++ str ";;;;"))) ≠ [] ∧
        (str "ADR" ++ (str ":;;" ++
          (optVal contact.address ++ str ";;;;"))).getLast? ≠ some '\n' := by
      intro _
      refine ⟨?_, ?_, ?_⟩
      · rw [nlCount_append, nlCount_append, nlCount_append, had']
        decide
      · intro hnil
        rw [List.append_eq_nil] at hnil
        exact absurd hnil.1 (by decide)
      · have hlast : (str "ADR" ++ (str ":;;" ++
            (optVal contact.address ++ str ";;;;"))).getLast? = some ';' :=
          getLast?_append_some _ _ _ (getLast?_append_some _ _ _
            (getLast?_append_some _ _ _ (by decide)))
        rw [hlast]
        decide
    have hA := optLine_props (truthyOpt contact.address)
      (str "ADR" ++ (str ":;;" ++ (optVal contact.address ++ str ";;;;")))
      (if truthyOpt contact.address = true then
        (str "ADR" ++ (str ":;;" ++
          (optVal contact.address ++ str ";;;;"))) ++ ['\n'] else []) hAx rfl
    refine ⟨(str "BEGIN:VCARD\nVERSION:2.1\nN:;" ++
        (contact.name ++ (conv.name_suffix ++ (str ";;;\nFN:" ++
          (contact.name ++ (conv.name_suffix ++ str "\n")))))) ++
        (str "TEL;CELL;PREF:" ++ (contact.phone ++ ['\n'])),
      if truthyOpt contact.email = true then
        (str "EMAIL" ++ (str ":" ++ optVal contact.email)) ++ ['\n'] else [],
      if truthyOpt contact.organization = true then
        (str "ORG:" ++ optVal contact.organization) ++ ['\n'] else [],
      if truthyOpt contact.title = true then
        (str "TITLE:" ++ optVal contact.title) ++ ['\n'] else [],
      if truthyOpt contact.address = true then
        (str "ADR" ++ (str ":;;" ++
          (optVal contact.address ++ str ";;;;"))) ++ ['\n'] else [],
      if truthyOpt contact.notes = true then
        (str "NOTE:" ++ optVal contact.notes) ++ ['\n'] else [],
      ?_, ?_, ?_, ?_, hE.1, hE.2.1, hO.1, hO.2.1, hT.1, hT.2.1,
      hA.1, hA.2.1, hN.1, hN.2.1, ?_⟩
    · simp only [create_vcard_entry, hv, eq_self_iff_true, if_true,
        eq_false (show ¬(VCardVersion.V2_1 = VCardVersion.V3_0) from by decide),
        if_false]
      rw [show str "\nTEL;CELL;PREF:" = str "\n" ++ str "TEL;CELL;PREF:" from rfl]
      simp [List.append_assoc]
    · exact getLast?_append_some _ _ _ (getLast?_append_some _ _ _ (by simp))
    · intro hx
      exact absurd hx (by decide)
    · intro _
      exact ⟨_, rfl⟩
    · have h0 : NoBlankEnd ((str "BEGIN:VCARD\nVERSION:2.1\nN:;" ++
          (contact.name ++ (conv.name_suffix ++ (str ";;;\nFN:" ++
            (contact.name ++ (conv.name_suffix ++ str "\n")))))) ++
          (str "TEL;CELL;PREF:" ++ (contact.phone ++ ['\n']))) := by
        have hre : (str "BEGIN:VCARD\nVERSION:2.1\nN:;" ++
            (contact.name ++ (conv.name_suffix ++ (str ";;;\nFN:" ++
              (contact.name ++ (conv.name_suffix ++ str "\n")))))) ++
            (str "TEL;CELL;PREF:" ++ (contact.phone ++ ['\n'])) =
            ((str "BEGIN:VCARD\nVERSION:2.1\nN:;" ++
              (contact.name ++ (conv.name_suffix ++ (str ";;;\nFN:" ++
                (contact.name ++ (conv.name_suffix ++ str "\n")))))) ++
              str "TEL;CELL;PREF:") ++ (contact.phone ++ ['\n']) := by
          simp [List.append_assoc]
        rw [hre]
        exact NoBlankEnd_tail _ _ (getLast?_append_some _ _ _ (by decide)) hp
      exact NoBlankEnd_five _ _ _ _ _ _ h0 hE.2.2 hO.2.2 hT.2.2 hA.2.2 hN.2.2

/-- C6 (witness): the amended structure applied to a concrete contact with
an email and notes but no other optional field. -/
theorem c6_card_structure_witness :
    noNL (str "+91  9876 5432 10") ∧
    ∃ pre eF oF tF aF nF,
      create_vcard_entry ⟨str "+91", VCardVersion.V3_0, [], true⟩
          ⟨str "Ann Lee", str "+91  9876 5432 10", some (str "a@b.co"), none,
           none, none, some (str "hi"), none⟩ =
        pre ++ (eF ++ (oF ++ (tF ++ (aF ++ (nF ++ str "END:VCARD"))))) ∧
      pre.getLast? = some '\n' ∧
      NoBlankEnd (pre ++ (eF ++ (oF ++ (tF ++ (aF ++ nF))))) := by
  refine ⟨by rfl, ?_⟩
  obtain ⟨pre, eF, oF, tF, aF, nF, h1, h2, h3, h4, h5, h6, h7, h8, h9, h10,
    h11, h12, h13, h14, h15⟩ :=
    c6_card_structure ⟨str "+91", VCardVersion.V3_0, [], true⟩
      ⟨str "Ann Lee", str "+91  9876 5432 10", some (str "a@b.co"), none,
       none, none, some (str "hi"), none⟩
      (by rfl) (by rfl) (by rfl) (by rfl) (by rfl) (by rfl)
  exact ⟨pre, eF, oF, tF, aF, nF, h1, h2, h15⟩

end VcardConvert
